import Mathlib

/-!
# Verification of the LibTACrypto library (Token-Access-Client)

Shallow embedding of src/lib/LibTACrypto.py and of the library primitives it
calls (base64, urllib.parse quoting, SHA-1/SHA-256, HMAC, HKDF, and the HOTP
computation of the cryptography package), over lists of natural numbers:
a Python bytes value is a List Nat with entries below 256, and a Python str
is represented by the list of its UTF-8 code units.
-/

set_option maxRecDepth 4096

/-! ## Bytes and words -/

/-- Big-endian encoding of a natural number on k bytes (as struct.pack with a
big-endian format, or int.to_bytes with byteorder big). -/
def natToBE : Nat → Nat → List Nat
  | 0, _ => []
  | Nat.succ k, n => natToBE k (n / 256) ++ [n % 256]

/-- Little-endian encoding of a natural number on k bytes. -/
def natToLE : Nat → Nat → List Nat
  | 0, _ => []
  | Nat.succ k, n => n % 256 :: natToLE k (n / 256)

/-- Little-endian byte list back to a natural number. -/
def leToNat : List Nat → Nat
  | [] => 0
  | b :: rest => b + 256 * leToNat rest

/-- Big-endian byte list back to a natural number (struct.unpack big-endian). -/
def beToNat (bs : List Nat) : Nat :=
  bs.foldl (fun acc b => acc * 256 + b) 0

/-- Big-endian 32-bit words to bytes. -/
def wordsToBytes : List Nat → List Nat
  | [] => []
  | w :: rest =>
    w / 16777216 % 256 :: w / 65536 % 256 :: w / 256 % 256 :: w % 256 :: wordsToBytes rest

/-- Bytes to big-endian 32-bit words (groups of 4; input length a multiple of 4). -/
def bytesToWords : List Nat → List Nat
  | b0 :: b1 :: b2 :: b3 :: rest =>
    (b0 * 16777216 + b1 * 65536 + b2 * 256 + b3) :: bytesToWords rest
  | _ => []

/-- Cut a byte list into 64-byte blocks; the fuel bounds the number of blocks
and is consumed one unit per block. -/
def chunksAux : Nat → List Nat → List (List Nat)
  | _, [] => []
  | 0, l => [l]
  | Nat.succ f, l => l.take 64 :: chunksAux f (l.drop 64)

/-- Cut a byte list into 64-byte blocks (the length is always enough fuel). -/
def chunks64 (l : List Nat) : List (List Nat) := chunksAux l.length l

/-- Truncated 32-bit rotate left. -/
def rotl32 (n k : Nat) : Nat := (n * 2 ^ k + n / 2 ^ (32 - k)) % 4294967296

/-- Truncated 32-bit rotate right. -/
def rotr32 (n k : Nat) : Nat := (n / 2 ^ k + n % 2 ^ k * 2 ^ (32 - k)) % 4294967296

/-- Bitwise complement on 32 bits. -/
def not32 (n : Nat) : Nat := Nat.xor n 4294967295

/-- Pairwise 32-bit addition of two word lists. -/
def addWords : List Nat → List Nat → List Nat
  | x :: xs, y :: ys => (x + y) % 4294967296 :: addWords xs ys
  | _, _ => []

/-- Merkle-Damgard padding shared by SHA-1 and SHA-256: append 0x80, zero bytes
up to 56 mod 64, then the 64-bit big-endian bit length. -/
def shaPad (msg : List Nat) : List Nat :=
  msg ++ 128 :: List.replicate ((119 - msg.length % 64) % 64) 0 ++ natToBE 8 (msg.length * 8)

/-! ## SHA-256 (FIPS 180-4) -/

/-- SHA-256 round constants, in decimal. -/
def K256 : List Nat :=
  [1116352408, 1899447441, 3049323471, 3921009573,
   961987163, 1508970993, 2453635748, 2870763221,
   3624381080, 310598401, 607225278, 1426881987,
   1925078388, 2162078206, 2614888103, 3248222580,
   3835390401, 4022224774, 264347078, 604807628,
   770255983, 1249150122, 1555081692, 1996064986,
   2554220882, 2821834349, 2952996808, 3210313671,
   3336571891, 3584528711, 113926993, 338241895,
   666307205, 773529912, 1294757372, 1396182291,
   1695183700, 1986661051, 2177026350, 2456956037,
   2730485921, 2820302411, 3259730800, 3345764771,
   3516065817, 3600352804, 4094571909, 275423344,
   430227734, 506948616, 659060556, 883997877,
   958139571, 1322822218, 1537002063, 1747873779,
   1955562222, 2024104815, 2227730452, 2361852424,
   2428436474, 2756734187, 3204031479, 3329325298]

/-- SHA-256 initial hash value, in decimal. -/
def H256 : List Nat :=
  [1779033703, 3144134277, 1013904242, 2773480762,
   1359893119, 2600822924, 528734635, 1541459225]

/-- One step of the SHA-256 message-schedule extension; the argument holds the
words computed so far, most recent first. -/
def sha256Ext (rev : List Nat) : Nat :=
  let w2 := rev.getD 1 0
  let w7 := rev.getD 6 0
  let w15 := rev.getD 14 0
  let w16 := rev.getD 15 0
  let s0 := Nat.xor (rotr32 w15 7) (Nat.xor (rotr32 w15 18) (w15 / 8))
  let s1 := Nat.xor (rotr32 w2 17) (Nat.xor (rotr32 w2 19) (w2 / 1024))
  (w16 + s0 + w7 + s1) % 4294967296

/-- Iterate the schedule extension a given number of times. -/
def sha256ExtLoop : Nat → List Nat → List Nat
  | 0, rev => rev
  | Nat.succ n, rev => sha256ExtLoop n (sha256Ext rev :: rev)

/-- Full 64-word SHA-256 message schedule of one block (given as 16 words). -/
def sha256Schedule (block16 : List Nat) : List Nat :=
  (sha256ExtLoop 48 block16.reverse).reverse

/-- One SHA-256 compression round on the 8-word working state. -/
def sha256Round (k w : Nat) (st : List Nat) : List Nat :=
  match st with
  | [a, b, c, d, e, f, g, h] =>
    let s1 := Nat.xor (rotr32 e 6) (Nat.xor (rotr32 e 11) (rotr32 e 25))
    let ch := Nat.xor (Nat.land e f) (Nat.land (not32 e) g)
    let t1 := (h + s1 + ch + k + w) % 4294967296
    let s0 := Nat.xor (rotr32 a 2) (Nat.xor (rotr32 a 13) (rotr32 a 22))
    let mj := Nat.xor (Nat.land a b) (Nat.xor (Nat.land a c) (Nat.land b c))
    let t2 := (s0 + mj) % 4294967296
    [(t1 + t2) % 4294967296, a, b, c, (d + t1) % 4294967296, e, f, g]
  | _ => st

/-- SHA-256 compression of one 64-byte block into the chaining value. -/
def sha256Compress (hv : List Nat) (block : List Nat) : List Nat :=
  let ws := sha256Schedule (bytesToWords block)
  addWords hv ((K256.zip ws).foldl (fun st kw => sha256Round kw.1 kw.2 st) hv)

/-- SHA-256 digest of a byte list, as 32 bytes. -/
def sha256 (msg : List Nat) : List Nat :=
  wordsToBytes ((chunks64 (shaPad msg)).foldl sha256Compress H256)

/-! ## SHA-1 (FIPS 180-4) -/

/-- SHA-1 initial hash value, in decimal. -/
def H1 : List Nat := [1732584193, 4023233417, 2562383102, 271733878, 3285377520]

/-- One step of the SHA-1 message-schedule extension (most recent word first). -/
def sha1Ext (rev : List Nat) : Nat :=
  let w3 := rev.getD 2 0
  let w8 := rev.getD 7 0
  let w14 := rev.getD 13 0
  let w16 := rev.getD 15 0
  rotl32 (Nat.xor w3 (Nat.xor w8 (Nat.xor w14 w16))) 1

/-- Iterate the SHA-1 schedule extension. -/
def sha1ExtLoop : Nat → List Nat → List Nat
  | 0, rev => rev
  | Nat.succ n, rev => sha1ExtLoop n (sha1Ext rev :: rev)

/-- Full 80-word SHA-1 message schedule of one block. -/
def sha1Schedule (block16 : List Nat) : List Nat :=
  (sha1ExtLoop 64 block16.reverse).reverse

/-- One SHA-1 compression round (round index i, schedule word w). -/
def sha1Round (i w : Nat) (st : List Nat) : List Nat :=
  match st with
  | [a, b, c, d, e] =>
    let f := if i < 20 then Nat.xor (Nat.land b c) (Nat.land (not32 b) d)
             else if i < 40 then Nat.xor b (Nat.xor c d)
             else if i < 60 then Nat.lor (Nat.land b c) (Nat.lor (Nat.land b d) (Nat.land c d))
             else Nat.xor b (Nat.xor c d)
    let k := if i < 20 then 1518500249 else if i < 40 then 1859775393
             else if i < 60 then 2400959708 else 3395469782
    [(rotl32 a 5 + f + e + k + w) % 4294967296, a, rotl32 b 30, c, d]
  | _ => st

/-- SHA-1 compression of one 64-byte block into the chaining value. -/
def sha1Compress (hv : List Nat) (block : List Nat) : List Nat :=
  let ws := sha1Schedule (bytesToWords block)
  addWords hv (((List.range 80).zip ws).foldl (fun st iw => sha1Round iw.1 iw.2 st) hv)

/-- SHA-1 digest of a byte list, as 20 bytes. -/
def sha1 (msg : List Nat) : List Nat :=
  wordsToBytes ((chunks64 (shaPad msg)).foldl sha1Compress H1)

/-! ## Hash-algorithm selection

The module resolves hashes by name from cryptography.hazmat.primitives.hashes;
the two algorithms exercised by the claims (the SHA256 default and SHA1) are
embedded. -/

/-- Supported hash algorithms of the embedding. -/
inductive HashAlg where
  | SHA1
  | SHA256
deriving DecidableEq, Repr

/-- The digest function of an algorithm. -/
def shaBytes : HashAlg → List Nat → List Nat
  | .SHA1 => sha1
  | .SHA256 => sha256

/-- digest_size of an algorithm, in bytes. -/
def hashDigestSize : HashAlg → Nat
  | .SHA1 => 20
  | .SHA256 => 32

/-! ## HMAC (RFC 2104; block size 64 for both SHA-1 and SHA-256) -/

/-- HMAC keyed digest. -/
def hmacRun (alg : HashAlg) (key msg : List Nat) : List Nat :=
  let k0 := if 64 < key.length then shaBytes alg key else key
  let kp := k0 ++ List.replicate (64 - k0.length) 0
  shaBytes alg (kp.map (fun b => Nat.xor b 92) ++ shaBytes alg (kp.map (fun b => Nat.xor b 54) ++ msg))

/-! ## HKDF (RFC 5869), as run by cryptography.hazmat.primitives.kdf.hkdf with
salt=None: the salt is a zero block of the digest size. -/

/-- HKDF-Expand block loop: fuel, previous block, block counter. -/
def hkdfLoop (alg : HashAlg) (prk info : List Nat) : Nat → List Nat → Nat → List Nat
  | 0, _, _ => []
  | Nat.succ n, prev, i =>
    let t := hmacRun alg prk (prev ++ info ++ [i])
    t ++ hkdfLoop alg prk info n t (i + 1)

/-- HKDF derive with empty salt (the source always passes salt=None). -/
def hkdfDerive (alg : HashAlg) (length : Nat) (ikm info : List Nat) : List Nat :=
  let prk := hmacRun alg (List.replicate (hashDigestSize alg) 0) ikm
  (hkdfLoop alg prk info ((length + hashDigestSize alg - 1) / hashDigestSize alg) [] 1).take length

/-! ## Python error values

The exceptions that can escape the embedded operations. -/

/-- Errors raised by the embedded library calls. -/
inductive PyErr where
  /-- binascii.Error for data ending one character into a quad. -/
  | binasciiInvalidLength
  /-- binascii.Error Incorrect padding. -/
  | binasciiInvalidPadding
  /-- ValueError (bad key length, bad OTP length, bad public-key size, non-ASCII text, zero shared secret). -/
  | valueError
  /-- struct.error from packing a counter that does not fit 8 bytes. -/
  | structError
  /-- UnicodeDecodeError from bytes.decode on invalid UTF-8. -/
  | unicodeDecodeError
deriving DecidableEq, Repr

/-- A Python value that is either a text string (UTF-8 code units) or a bytes
object; used where the str-versus-bytes distinction matters. -/
inductive PyVal where
  | str (s : List Nat)
  | bytes (b : List Nat)
deriving DecidableEq, Repr

/-- Ok-projection of an embedded Python computation. -/
def okValue : Except PyErr α → Option α
  | .ok a => some a
  | .error _ => none

/-! ## base64 (CPython base64.b64encode / base64.b64decode)

The source binds these with base=b64 by getattr(base64, base+encode/decode). -/

/-- The base64 alphabet: 6-bit value to ASCII code. -/
def b64tab (n : Nat) : Nat :=
  if n < 26 then 65 + n
  else if n < 52 then 71 + n
  else if n < 62 then n - 4
  else if n = 62 then 43
  else 47

/-- Partial inverse of the base64 alphabet (table_a2b_base64 of binascii). -/
def b64untab (c : Nat) : Option Nat :=
  if 65 ≤ c ∧ c ≤ 90 then some (c - 65)
  else if 97 ≤ c ∧ c ≤ 122 then some (c - 71)
  else if 48 ≤ c ∧ c ≤ 57 then some (c + 4)
  else if c = 43 then some 62
  else if c = 47 then some 63
  else none

/-- base64.b64encode on a byte list: groups of three bytes become four alphabet
characters; a final group of one or two bytes is completed with = padding. -/
def b64encode : List Nat → List Nat
  | [] => []
  | [a] => [b64tab (a / 4), b64tab (a % 4 * 16), 61, 61]
  | [a, b] => [b64tab (a / 4), b64tab (a % 4 * 16 + b / 16), b64tab (b % 16 * 4), 61]
  | a :: b :: c :: rest =>
    b64tab (a / 4) :: b64tab (a % 4 * 16 + b / 16) :: b64tab (b % 16 * 4 + c / 64) ::
      b64tab (c % 64) :: b64encode rest

/-- Prepend a byte to the output of a decode continuation. -/
def consOk (x : Nat) : Except PyErr (List Nat) → Except PyErr (List Nat)
  | .ok l => .ok (x :: l)
  | .error e => .error e

/-- The quad state machine of binascii.a2b_base64 in its default non-strict
mode: characters outside the alphabet are skipped; an = closes the quad once at
least two data characters were seen (ending the scan); at end of input a quad
position of 1 is an invalid length and 2 or 3 an incorrect padding. State:
remaining input, quad position, pending bits, pad count. -/
def b64decLoop : List Nat → Nat → Nat → Nat → Except PyErr (List Nat)
  | [], 0, _, _ => .ok []
  | [], 1, _, _ => .error .binasciiInvalidLength
  | [], _, _, _ => .error .binasciiInvalidPadding
  | c :: rest, quadPos, leftchar, pads =>
    if c = 61 then
      if 2 ≤ quadPos then
        if 4 ≤ quadPos + pads + 1 then .ok []
        else b64decLoop rest quadPos leftchar (pads + 1)
      else b64decLoop rest quadPos leftchar pads
    else
      match b64untab c with
      | none => b64decLoop rest quadPos leftchar pads
      | some d =>
        match quadPos with
        | 0 => b64decLoop rest 1 d 0
        | 1 => consOk (leftchar * 4 + d / 16) (b64decLoop rest 2 (d % 16) 0)
        | 2 => consOk (leftchar * 16 + d / 4) (b64decLoop rest 3 (d % 4) 0)
        | _ => consOk (leftchar * 64 + d) (b64decLoop rest 0 0 0)

/-- base64.b64decode on a bytes argument. -/
def pyB64decodeBytes (bs : List Nat) : Except PyErr (List Nat) :=
  b64decLoop bs 0 0 0

/-- base64.b64decode on a str argument: the string is first ASCII-encoded,
which fails on any code unit of 128 or more. -/
def pyB64decodeStr (s : List Nat) : Except PyErr (List Nat) :=
  if s.all (fun c => c < 128) then b64decLoop s 0 0 0 else .error .valueError

/-! ## urllib.parse quoting -/

/-- Bytes never quoted by urllib.parse.quote_from_bytes with its default
safe set (ASCII letters, digits, underscore, dot, hyphen, tilde, slash). -/
def urlSafeByte (c : Nat) : Bool :=
  (65 ≤ c && c ≤ 90) || (97 ≤ c && c ≤ 122) || (48 ≤ c && c ≤ 57) ||
    c == 95 || c == 46 || c == 45 || c == 126 || c == 47

/-- Uppercase hexadecimal digit of a value below 16. -/
def hexUpper (n : Nat) : Nat := if n < 10 then 48 + n else 55 + n

/-- urllib.parse.quote_from_bytes with the default safe characters: safe bytes
pass through, every other byte becomes a percent escape. -/
def quoteFromBytes : List Nat → List Nat
  | [] => []
  | c :: rest =>
    if urlSafeByte c then c :: quoteFromBytes rest
    else 37 :: hexUpper (c / 16) :: hexUpper (c % 16) :: quoteFromBytes rest

/-- Hexadecimal digit test (both cases), as accepted by unquote_to_bytes. -/
def isHexDigit (c : Nat) : Bool :=
  (48 ≤ c && c ≤ 57) || (65 ≤ c && c ≤ 70) || (97 ≤ c && c ≤ 102)

/-- Value of a hexadecimal digit. -/
def hexVal (c : Nat) : Nat :=
  if c ≤ 57 then c - 48 else if c ≤ 70 then c - 55 else c - 87

/-- urllib.parse.unquote_to_bytes: a percent sign followed by two hexadecimal
digits decodes to one byte; a percent sign not followed by two hexadecimal
digits stays literal; everything else passes through. -/
def unquoteToBytes : List Nat → List Nat
  | [] => []
  | c :: h1 :: h2 :: rest2 =>
    if c = 37 && isHexDigit h1 && isHexDigit h2 then
      (hexVal h1 * 16 + hexVal h2) :: unquoteToBytes rest2
    else c :: unquoteToBytes (h1 :: h2 :: rest2)
  | c :: rest => c :: unquoteToBytes rest

/-! ## UTF-8 validity and bytes.decode -/

/-- A UTF-8 continuation byte. -/
def utf8Cont (c : Nat) : Bool := 128 ≤ c && c ≤ 191

/-- The validation automaton for strict UTF-8: pending counts the continuation
bytes still expected, and lo and hi bound the next byte (the first continuation
byte of a sequence is restricted after the leads 0xE0, 0xED, 0xF0 and 0xF4 to
exclude overlong forms, surrogates and values beyond U+10FFFF). -/
def utf8Loop : List Nat → Nat → Nat → Nat → Bool
  | [], pending, _, _ => pending == 0
  | c :: rest, 0, _, _ =>
    if c < 128 then utf8Loop rest 0 0 0
    else if c < 194 then false
    else if c < 224 then utf8Loop rest 1 128 191
    else if c = 224 then utf8Loop rest 2 160 191
    else if c = 237 then utf8Loop rest 2 128 159
    else if c < 240 then utf8Loop rest 2 128 191
    else if c = 240 then utf8Loop rest 3 144 191
    else if c < 244 then utf8Loop rest 3 128 191
    else if c = 244 then utf8Loop rest 3 128 143
    else false
  | c :: rest, Nat.succ p, lo, hi =>
    if lo ≤ c ∧ c ≤ hi then utf8Loop rest p 128 191 else false

/-- Strict UTF-8 validity of a byte list, as checked by bytes.decode. -/
def validUtf8 (l : List Nat) : Bool := utf8Loop l 0 0 0

/-- bytes.decode: under the representation of str values by their UTF-8 code
units, decoding checks validity and returns the same list. -/
def pyBytesDecode (bs : List Nat) : Except PyErr (List Nat) :=
  if validUtf8 bs then .ok bs else .error .unicodeDecodeError

/-! ## Decimal formatting -/

/-- ASCII decimal digits of a natural number, with fuel consumed one unit per
digit beyond the first. -/
def decReprAux : Nat → Nat → List Nat
  | 0, n => [48 + n % 10]
  | Nat.succ f, n => if n < 10 then [48 + n] else decReprAux f (n / 10) ++ [48 + n % 10]

/-- ASCII decimal digits of a natural number (the number is always enough
fuel). -/
def decRepr (n : Nat) : List Nat := decReprAux n n

/-- Zero-pad an ASCII digit list on the left to a minimum width, as the
format specification 0 plus width does. -/
def zeroPadTo (k : Nat) (ds : List Nat) : List Nat :=
  List.replicate (k - ds.length) 48 ++ ds

/-! ## HOTP (cryptography.hazmat.primitives.twofactor.hotp) -/

/-- The dynamic-truncation step of HOTP.generate: HMAC over the 8-byte
big-endian counter, offset from the low nibble of the last byte, 4 bytes read
there, high bit masked. -/
def hotpDynamicTruncate (alg : HashAlg) (key : List Nat) (counter : Nat) : Nat :=
  let mac := hmacRun alg key (natToBE 8 counter)
  let offset := mac.getD (mac.length - 1) 0 % 16
  Nat.land (beToNat ((mac.drop offset).take 4)) 0x7fffffff

/-- HOTP construction and generation: the constructor rejects keys shorter
than 16 bytes and lengths outside 6 to 8; generate packs the counter on
8 bytes (failing at 2 to the 64), truncates, reduces modulo 10^length, and
returns the zero-padded decimal text encoded back to bytes. -/
def hotpGenerate (alg : HashAlg) (key : List Nat) (length counter : Nat) : Except PyErr PyVal :=
  if key.length < 16 then .error .valueError
  else if length < 6 ∨ 8 < length then .error .valueError
  else if 18446744073709551616 ≤ counter then .error .structError
  else .ok (.bytes (zeroPadTo length (decRepr (hotpDynamicTruncate alg key counter % 10 ^ length))))

/-- Embedding of getHotp from src/lib/LibTACrypto.py: decode the pre-shared
key with the b64 binding of the base64 module (the default base), then run the
HOTP computation of the cryptography package. The base argument is fixed to
its default b64 and the algorithm ranges over the embedded hash algorithms,
with the same SHA256 default as the source. -/
def getHotp (preSharedKey : List Nat) (count : Nat) (algorithm : HashAlg := .SHA256)
    (length : Nat := 6) : Except PyErr PyVal :=
  match pyB64decodeStr preSharedKey with
  | .error e => .error e
  | .ok bytesPSK => hotpGenerate algorithm bytesPSK length count

/-! ## PreSharedKey (ECDH + HKDF)

The x25519 primitive lives in the external cryptography/OpenSSL dependency,
not in this repository. Modelled from the spec: KeyExchange generates an
ephemeral key pair on the curve, exports the raw public point, and
deriveSharedSecret performs the ECDH scalar multiplication. The cyclic group
generated by the base point (prime order l25519) is represented through its
exponent: a private key is a scalar a, its public point is a mod l25519, raw
point serialization is the 32-byte little-endian form, and the exchange is
scalar multiplication, giving the shared value a times b mod l25519. The
all-zero shared secret is rejected as the library does. -/

/-- Order of the prime-order subgroup of Curve25519. -/
def l25519 : Nat := 2 ^ 252 + 27742317777372353535851937790883648493

/-- The PreSharedKey instance state: the generated private key, the PSK
attribute (class default None), and the hash algorithm chosen at
construction. -/
structure PreSharedKey where
  pvtKey : Nat
  PSK : Option (List Nat)
  algorithm : HashAlg
deriving DecidableEq, Repr

/-- The constructor of PreSharedKey: generates a key pair (the private scalar
is the parameter standing for the randomness) and leaves the PSK attribute at
its class default None. -/
def mkPreSharedKey (scalar : Nat) (algorithm : HashAlg := .SHA256) : PreSharedKey :=
  ⟨scalar, none, algorithm⟩

/-- Embedding of PreSharedKey.exportPubKey: raw public bytes of the public
key, base64-encoded, then URL-quoted. -/
def PreSharedKey.exportPubKey (self : PreSharedKey) : List Nat :=
  quoteFromBytes (b64encode (natToLE 32 (self.pvtKey % l25519)))

/-- Embedding of PreSharedKey.generate: unquote and base64-decode the peer
public key, rebuild the public point (from_public_bytes rejects any size other
than 32 bytes), run the ECDH exchange, derive 20 bytes by HKDF with no salt
and the user name as info, base64-encode, decode to str, store in the PSK
attribute and return it. -/
def PreSharedKey.generate (self : PreSharedKey) (user recipientPubKey : List Nat) :
    Except PyErr (List Nat × PreSharedKey) :=
  match pyB64decodeBytes (unquoteToBytes recipientPubKey) with
  | .error e => .error e
  | .ok pubBytes =>
    if pubBytes.length = 32 then
      if self.pvtKey * leToNat pubBytes % l25519 = 0 then .error .valueError
      else
        match
          pyBytesDecode (b64encode (hkdfDerive self.algorithm 20
            (natToLE 32 (self.pvtKey * leToNat pubBytes % l25519)) user)) with
        | .error e => .error e
        | .ok psk => .ok (psk, { self with PSK := some psk })
    else .error .valueError

/-! ## HashText -/

/-- The HashText instance state: the UTF-8 encoded plaintext and the hash
algorithm chosen at construction. -/
structure HashText where
  plaintext : List Nat
  algorithm : HashAlg
deriving DecidableEq

/-- The constructor of HashText: stores plaintext.encode(), which under the
str representation by UTF-8 code units is the same list. -/
def mkHashText (plaintext : List Nat) (algorithm : HashAlg := .SHA256) : HashText :=
  ⟨plaintext, algorithm⟩

/-- Embedding of HashText.getHash: base64-encoded digest of the stored
plaintext, returned as bytes. -/
def HashText.getHash (self : HashText) : List Nat :=
  b64encode (shaBytes self.algorithm self.plaintext)

/-- Embedding of HashText.isSame: recompute the hash and compare it to
hashStr.encode() with the equality operator; encoding the str argument gives
back its code-unit list. -/
def HashText.isSame (self : HashText) (hashStr : List Nat) : Bool :=
  self.getHash == hashStr


/-! ## Concrete values used by the claims -/

/-- The RFC 4226 test key: the ASCII bytes of the twenty-character string
12345678901234567890. -/
def rfcKey : List Nat := [49,50,51,52,53,54,55,56,57,48,49,50,51,52,53,54,55,56,57,48]

/-- The user name alice, as UTF-8 code units. -/
def userAlice : List Nat := [97, 108, 105, 99, 101]

/-- The user name bob, as UTF-8 code units. -/
def userBob : List Nat := [98, 111, 98]

/-- The PSK derived in the concrete run with private scalars 5 and 7 and user
alice (the base64 text qAOIO8YxSL1XZrvCZmCbnjh2v5I= as code units). -/
def pskVal57 : List Nat :=
  [113, 65, 79, 73, 79, 56, 89, 120, 83, 76, 49, 88, 90, 114, 118, 67,
   90, 109, 67, 98, 110, 106, 104, 50, 118, 53, 73, 61]

/-! ## Lemmas about the base64 alphabet -/

/-- Every character the base64 alphabet produces is ASCII. -/
theorem b64tab_lt_128 (n : Nat) : b64tab n < 128 := by
  unfold b64tab
  repeat' split
  all_goals omega

/-- The base64 alphabet never produces the padding character. -/
theorem b64tab_ne_61 (n : Nat) : ¬ b64tab n = 61 := by
  unfold b64tab
  repeat' split
  all_goals omega

/-- The decode table inverts the encode table on 6-bit values. -/
theorem b64untab_tab : ∀ n, n < 64 → b64untab (b64tab n) = some n := by decide

/-- Characters of a base64 encoding are ASCII. -/
theorem b64encode_lt_128 : ∀ (b : List Nat), ∀ c ∈ b64encode b, c < 128 := by
  intro b
  induction b using b64encode.induct with
  | case1 => simp [b64encode]
  | case2 a =>
    simp only [b64encode, List.mem_cons, List.not_mem_nil, or_false]
    rintro c (rfl | rfl | rfl | rfl) <;> first | exact b64tab_lt_128 _ | omega
  | case3 a b =>
    simp only [b64encode, List.mem_cons, List.not_mem_nil, or_false]
    rintro c (rfl | rfl | rfl | rfl) <;> first | exact b64tab_lt_128 _ | omega
  | case4 a b c rest ih =>
    simp only [b64encode, List.mem_cons]
    rintro x (rfl | rfl | rfl | rfl | hx)
    · exact b64tab_lt_128 _
    · exact b64tab_lt_128 _
    · exact b64tab_lt_128 _
    · exact b64tab_lt_128 _
    · exact ih x hx

/-! ## Lemmas about URL quoting -/

/-- Hexadecimal upper-case digits are accepted by the unquoting scan. -/
theorem isHexDigit_hexUpper : ∀ n, n < 16 → isHexDigit (hexUpper n) = true := by decide

/-- hexVal inverts hexUpper on nibbles. -/
theorem hexVal_hexUpper : ∀ n, n < 16 → hexVal (hexUpper n) = n := by decide

/-- Unquoting walks over a leading byte that is not a percent sign. -/
theorem unquote_cons_ne37 (c : Nat) (hc : ¬ c = 37) (l : List Nat) :
    unquoteToBytes (c :: l) = c :: unquoteToBytes l := by
  match l with
  | [] => rfl
  | [h1] => rfl
  | h1 :: h2 :: t => simp [unquoteToBytes, hc]

/-- Unquoting inverts quoting on byte lists. -/
theorem unquote_quote (b : List Nat) (hb : ∀ x ∈ b, x < 256) :
    unquoteToBytes (quoteFromBytes b) = b := by
  induction b with
  | nil => rfl
  | cons c rest ih =>
    have hc : c < 256 := hb c (by simp)
    have hrest : ∀ x ∈ rest, x < 256 := fun x hx => hb x (by simp [hx])
    by_cases hs : urlSafeByte c
    · have hc37 : ¬ c = 37 := by
        rintro rfl
        simp [urlSafeByte] at hs
      simp only [quoteFromBytes, if_pos hs]
      rw [unquote_cons_ne37 c hc37, ih hrest]
    · simp only [quoteFromBytes, if_neg hs]
      simp only [unquoteToBytes]
      rw [if_pos]
      · rw [hexVal_hexUpper _ (by omega), hexVal_hexUpper _ (by omega), ih hrest]
        congr 1
        omega
      · simp [isHexDigit_hexUpper _ (by omega : c / 16 < 16),
              isHexDigit_hexUpper _ (by omega : c % 16 < 16)]

/-! ## Lemmas about byte serialization -/

/-- natToLE produces exactly k bytes. -/
theorem natToLE_length (k n : Nat) : (natToLE k n).length = k := by
  induction k generalizing n with
  | zero => rfl
  | succ k ih => simp [natToLE, ih]

/-- natToLE produces bytes. -/
theorem natToLE_lt_256 (k n : Nat) : ∀ x ∈ natToLE k n, x < 256 := by
  induction k generalizing n with
  | zero => simp [natToLE]
  | succ k ih =>
    intro x hx
    simp only [natToLE, List.mem_cons] at hx
    rcases hx with rfl | hx
    · exact Nat.mod_lt _ (by omega)
    · exact ih _ x hx

/-- Reading back a little-endian encoding recovers the number modulo 256^k. -/
theorem leToNat_natToLE (k n : Nat) : leToNat (natToLE k n) = n % 256 ^ k := by
  induction k generalizing n with
  | zero => simp [natToLE, leToNat, Nat.mod_one]
  | succ k ih =>
    simp only [natToLE, leToNat, ih]
    rw [pow_succ, mul_comm (256 ^ k) 256, Nat.mod_mul]

/-! ## Lemmas about UTF-8 -/

/-- Every ASCII byte list is valid UTF-8. -/
theorem validUtf8_of_ascii (l : List Nat) (h : ∀ c ∈ l, c < 128) : validUtf8 l = true := by
  unfold validUtf8
  induction l with
  | nil => rfl
  | cons c rest ih =>
    have hc : c < 128 := h c (by simp)
    simp only [utf8Loop, if_pos hc]
    exact ih (fun x hx => h x (by simp [hx]))

/-! ## The base64 round trip -/

/-- Unfolding helper: consOk on a successful continuation. -/
theorem consOk_ok (x : Nat) (l : List Nat) : consOk x (.ok l) = .ok (x :: l) := rfl

/-- Decoding inverts encoding on byte lists, through the quad state machine
started in its initial state. -/
theorem b64decLoop_encode :
    ∀ (b : List Nat), (∀ x ∈ b, x < 256) → b64decLoop (b64encode b) 0 0 0 = .ok b := by
  intro b
  induction b using b64encode.induct with
  | case1 =>
    intro _
    rfl
  | case2 a =>
    intro hb
    have ha : a < 256 := hb a (by simp)
    have e1 : b64untab (b64tab (a / 4)) = some (a / 4) := b64untab_tab _ (by omega)
    have e2 : b64untab (b64tab (a % 4 * 16)) = some (a % 4 * 16) := b64untab_tab _ (by omega)
    simp [b64encode, b64decLoop, b64tab_ne_61, e1, e2, consOk_ok]
    omega
  | case3 a b =>
    intro hb
    have ha : a < 256 := hb a (by simp)
    have hb2 : b < 256 := hb b (by simp)
    have e1 : b64untab (b64tab (a / 4)) = some (a / 4) := b64untab_tab _ (by omega)
    have e2 : b64untab (b64tab (a % 4 * 16 + b / 16)) = some (a % 4 * 16 + b / 16) :=
      b64untab_tab _ (by omega)
    have e3 : b64untab (b64tab (b % 16 * 4)) = some (b % 16 * 4) := b64untab_tab _ (by omega)
    simp [b64encode, b64decLoop, b64tab_ne_61, e1, e2, e3, consOk_ok]
    omega
  | case4 a b c rest ih =>
    intro hb
    have ha : a < 256 := hb a (by simp)
    have hb2 : b < 256 := hb b (by simp)
    have hc : c < 256 := hb c (by simp)
    have hrest : ∀ x ∈ rest, x < 256 := fun x hx => hb x (by simp [hx])
    have e1 : b64untab (b64tab (a / 4)) = some (a / 4) := b64untab_tab _ (by omega)
    have e2 : b64untab (b64tab (a % 4 * 16 + b / 16)) = some (a % 4 * 16 + b / 16) :=
      b64untab_tab _ (by omega)
    have e3 : b64untab (b64tab (b % 16 * 4 + c / 64)) = some (b % 16 * 4 + c / 64) :=
      b64untab_tab _ (by omega)
    have e4 : b64untab (b64tab (c % 64)) = some (c % 64) := b64untab_tab _ (by omega)
    simp [b64encode, b64decLoop, b64tab_ne_61, e1, e2, e3, e4, ih hrest, consOk_ok]
    omega

/-- The predicate keeping exactly the characters the decoder consumes: the
padding character and the base64 alphabet. -/
def b64Kept (c : Nat) : Bool := c == 61 || (b64untab c).isSome

/-- The decoder ignores characters outside the alphabet: decoding an input
equals decoding the input with those characters removed, from any state. -/
theorem b64decLoop_filter (s : List Nat) :
    ∀ qp lc pads, b64decLoop s qp lc pads = b64decLoop (s.filter b64Kept) qp lc pads := by
  induction s with
  | nil => intro qp lc pads; rfl
  | cons c rest ih =>
    intro qp lc pads
    by_cases h61 : c = 61
    · subst h61
      rw [List.filter_cons_of_pos (by simp [b64Kept])]
      simp only [b64decLoop]
      simp only [ih]
    · cases hu : b64untab c with
      | none =>
        rw [List.filter_cons_of_neg (by simp [b64Kept, h61, hu])]
        simp only [b64decLoop, hu, if_neg h61]
        exact ih _ _ _
      | some d =>
        rw [List.filter_cons_of_pos (by simp [b64Kept, hu])]
        simp only [b64decLoop, hu, if_neg h61]
        simp only [ih]

/-! ## Lemmas about the pre-shared-key exchange -/

/-- Reducing one factor modulo n does not change a product modulo n. -/
theorem mul_mod_mod (x y n : Nat) : x * (y % n) % n = x * y % n := by
  conv_lhs => rw [Nat.mul_mod]
  rw [Nat.mod_mod_of_dvd y (dvd_refl n), ← Nat.mul_mod]

/-- The group order is positive. -/
theorem l25519_pos : 0 < l25519 := by
  unfold l25519
  norm_num

/-- The group order fits in 32 bytes. -/
theorem l25519_lt : l25519 < 256 ^ 32 := by
  unfold l25519
  norm_num

/-- Shape of a generate call on freshly constructed instances: the peer key
round-trips through quoting and base64, and the whole call reduces to the HKDF
of the shared value x times y mod the group order. -/
theorem generate_mk_export (x y : Nat) (alg : HashAlg) (user : List Nat) :
    (mkPreSharedKey x alg).generate user ((mkPreSharedKey y alg).exportPubKey) =
      (if x * y % l25519 = 0 then .error .valueError
       else
         match pyBytesDecode (b64encode (hkdfDerive alg 20 (natToLE 32 (x * y % l25519)) user)) with
         | .error e => .error e
         | .ok psk => .ok (psk, ⟨x, some psk, alg⟩)) := by
  unfold PreSharedKey.generate PreSharedKey.exportPubKey mkPreSharedKey
  rw [unquote_quote _ (fun c hc => lt_trans (b64encode_lt_128 _ c hc) (by omega))]
  have hdec : pyB64decodeBytes (b64encode (natToLE 32 (y % l25519))) =
      .ok (natToLE 32 (y % l25519)) := b64decLoop_encode _ (natToLE_lt_256 _ _)
  rw [hdec]
  have hle : leToNat (natToLE 32 (y % l25519)) = y % l25519 := by
    rw [leToNat_natToLE]
    exact Nat.mod_eq_of_lt (lt_trans (Nat.mod_lt _ l25519_pos) l25519_lt)
  simp only [natToLE_length, hle, mul_mod_mod, if_true]

/-- A successful generate call leaves the instance unchanged except for the
PSK attribute, which now holds the returned value. -/
theorem generate_ok_state (st : PreSharedKey) (user peer v : List Nat) (st' : PreSharedKey)
    (h : st.generate user peer = .ok (v, st')) :
    st' = ⟨st.pvtKey, some v, st.algorithm⟩ := by
  unfold PreSharedKey.generate at h
  split at h
  · exact absurd h (by simp)
  · split at h
    · split at h
      · exact absurd h (by simp)
      · split at h
        · exact absurd h (by simp)
        · rw [Except.ok.injEq, Prod.mk.injEq] at h
          obtain ⟨h1, h2⟩ := h
          rw [← h2, h1]
    · exact absurd h (by simp)

/-! ## The claims -/

/-- C1 (counterexample): with the default SHA256 algorithm, getHotp on the
base64-encoded RFC 4226 key at counter 0 returns the bytes of 875740, which is
neither the bytes nor the text form of the RFC 4226 value 755224 (the RFC
values are HMAC-SHA1 values, and the default algorithm of the source is
SHA256). -/
theorem C1_sha256_default_not_rfc4226 :
    okValue (getHotp (b64encode rfcKey) 0) = some (.bytes [56, 55, 53, 55, 52, 48]) ∧
    some (PyVal.bytes [56, 55, 53, 55, 52, 48]) ≠ some (PyVal.bytes [55, 53, 53, 50, 50, 52]) ∧
    some (PyVal.bytes [56, 55, 53, 55, 52, 48]) ≠ some (PyVal.str [55, 53, 53, 50, 50, 52]) :=
  ⟨rfl, by decide, by decide⟩

/-- C1 (amended): getHotp with algorithm SHA1 instead of the default, on the
base64-encoded RFC 4226 key with 6 digits, reproduces the ten published RFC
4226 values 755224, 287082, 359152, 969429, 338314, 254676, 287922, 162583,
399871 and 520489 for counters 0 through 9, returning each as an ASCII bytes
value. -/
theorem C1_sha1_reproduces_rfc4226 :
    (List.range 10).map (fun c => okValue (getHotp (b64encode rfcKey) c .SHA1 6)) =
      [some (.bytes [55, 53, 53, 50, 50, 52]), some (.bytes [50, 56, 55, 48, 56, 50]),
       some (.bytes [51, 53, 57, 49, 53, 50]), some (.bytes [57, 54, 57, 52, 50, 57]),
       some (.bytes [51, 51, 56, 51, 49, 52]), some (.bytes [50, 53, 52, 54, 55, 54]),
       some (.bytes [50, 56, 55, 57, 50, 50]), some (.bytes [49, 54, 50, 53, 56, 51]),
       some (.bytes [51, 57, 57, 56, 55, 49]), some (.bytes [53, 50, 48, 52, 56, 57])] := by
  rfl

/-- C2: two independently constructed instances on the same curve derive the
same PSK from each other's exported public key, for every pair of private
scalars, every hash algorithm and every user string; and the concrete run with
scalars 5 and 7 and user alice succeeds with the recorded value. The ECDH
primitive is modelled from the spec as scalar multiplication in the cyclic
group generated by the base point. -/
theorem C2_ecdh_psk_symmetry :
    (∀ (a b : Nat) (alg : HashAlg) (user : List Nat),
      ((mkPreSharedKey a alg).generate user ((mkPreSharedKey b alg).exportPubKey)).map Prod.fst =
        ((mkPreSharedKey b alg).generate user ((mkPreSharedKey a alg).exportPubKey)).map
          Prod.fst) ∧
    (okValue ((mkPreSharedKey 5).generate userAlice ((mkPreSharedKey 7).exportPubKey))).map
        Prod.fst = some pskVal57 := by
  constructor
  · intro a b alg user
    rw [generate_mk_export, generate_mk_export, Nat.mul_comm b a]
    by_cases h0 : a * b % l25519 = 0
    · rw [if_pos h0, if_pos h0]
    · rw [if_neg h0, if_neg h0]
      cases pyBytesDecode (b64encode (hkdfDerive alg 20 (natToLE 32 (a * b % l25519)) user)) <;>
        simp [Except.map]
  · rfl

/-- C3: the b64 encode and decode pair bound from the base64 module
round-trips exactly on every byte sequence, the empty one included. -/
theorem C3_b64_roundtrip (b : List Nat) (hb : ∀ x ∈ b, x < 256) :
    pyB64decodeBytes (b64encode b) = .ok b :=
  b64decLoop_encode b hb

/-- Witness for C3 at the empty list and at a three-byte list. -/
theorem C3_b64_roundtrip_witness :
    ((∀ x ∈ ([] : List Nat), x < 256) ∧ pyB64decodeBytes (b64encode []) = .ok []) ∧
    ((∀ x ∈ [0, 77, 255], x < 256) ∧
      pyB64decodeBytes (b64encode [0, 77, 255]) = .ok [0, 77, 255]) :=
  ⟨⟨by decide, C3_b64_roundtrip [] (by decide)⟩,
   ⟨by decide, C3_b64_roundtrip [0, 77, 255] (by decide)⟩⟩

/-- C4: generate never reads the stored PSK attribute, so a repeated call
with the identical arguments returns the identical result (the code is also
deterministic, being a pure function here); with the spec's example users, the
call with bob instead of alice completes without error and returns a
different PSK. -/
theorem C4_psk_user_binding :
    (∀ (scalar : Nat) (alg : HashAlg) (p0 p1 : Option (List Nat)) (user peer : List Nat),
      PreSharedKey.generate ⟨scalar, p0, alg⟩ user peer =
        PreSharedKey.generate ⟨scalar, p1, alg⟩ user peer) ∧
    (okValue ((mkPreSharedKey 5).generate userAlice ((mkPreSharedKey 7).exportPubKey))).map
        Prod.fst ≠
      (okValue ((mkPreSharedKey 5).generate userBob ((mkPreSharedKey 7).exportPubKey))).map
        Prod.fst ∧
    (okValue ((mkPreSharedKey 5).generate userBob ((mkPreSharedKey 7).exportPubKey))).isSome =
      true :=
  ⟨fun _ _ _ _ _ _ => rfl, by decide, by decide⟩

/-- C5: at the RFC 4226 key and counter 0, getHotp returns a Python bytes
object of exactly six ASCII decimal digits, and a bytes value is never a str
value: the function returns bytes although its annotation and the spec say
str. -/
theorem C5_getHotp_returns_digit_bytes :
    getHotp (b64encode rfcKey) 0 = .ok (.bytes [56, 55, 53, 55, 52, 48]) ∧
    ∀ s : List Nat, PyVal.bytes [56, 55, 53, 55, 52, 48] ≠ PyVal.str s :=
  ⟨rfl, fun _ h => PyVal.noConfusion h⟩

/-- C6 (counterexample): the dollar character is outside the base64 alphabet,
yet decoding the five-character text Q$Q== succeeds and returns the byte 65
instead of raising an error. -/
theorem C6_invalid_chars_not_rejected :
    b64untab 36 = none ∧ pyB64decodeStr [81, 36, 81, 61, 61] = .ok [65] :=
  ⟨rfl, rfl⟩

/-- C6 (amended): characters outside the alphabet are silently discarded
before decoding, on every input; a binascii error is raised only when the
surviving characters end mid-quad, as for the text QQ, while Q$Q== decodes to
the byte 65. -/
theorem C6_decode_discards_invalid :
    (∀ s : List Nat, pyB64decodeBytes s = pyB64decodeBytes (s.filter b64Kept)) ∧
    pyB64decodeStr [81, 81] = .error .binasciiInvalidPadding ∧
    pyB64decodeStr [81, 36, 81, 61, 61] = .ok [65] :=
  ⟨fun s => b64decLoop_filter s 0 0 0, rfl, rfl⟩

/-- C7 (counterexample): a successful generate call changes the instance: the
state after the concrete run with scalars 5 and 7 holds the derived PSK and
differs from the freshly constructed state. -/
theorem C7_generate_mutates_state :
    (okValue ((mkPreSharedKey 5).generate userAlice ((mkPreSharedKey 7).exportPubKey))).map
        Prod.snd = some (PreSharedKey.mk 5 (some pskVal57) HashAlg.SHA256) ∧
    PreSharedKey.mk 5 (some pskVal57) HashAlg.SHA256 ≠ mkPreSharedKey 5 :=
  ⟨rfl, by decide⟩

/-- C7 (amended): generate mutates only the PSK attribute: after a successful
call the private key and the algorithm are unchanged and the PSK attribute
holds the returned value (exportPubKey, embedded as a plain function of the
state, mutates nothing). -/
theorem C7_only_psk_attribute_changes (st : PreSharedKey) (user peer v : List Nat)
    (st' : PreSharedKey) (h : PreSharedKey.generate st user peer = .ok (v, st')) :
    st'.pvtKey = st.pvtKey ∧ st'.algorithm = st.algorithm ∧ st'.PSK = some v := by
  rw [generate_ok_state st user peer v st' h]
  exact ⟨rfl, rfl, rfl⟩

/-- Witness for the amended C7 at the concrete run with scalars 5 and 7. -/
theorem C7_only_psk_attribute_changes_witness :
    (PreSharedKey.mk 5 (some pskVal57) HashAlg.SHA256).pvtKey = (mkPreSharedKey 5).pvtKey ∧
    (PreSharedKey.mk 5 (some pskVal57) HashAlg.SHA256).algorithm =
      (mkPreSharedKey 5).algorithm ∧
    (PreSharedKey.mk 5 (some pskVal57) HashAlg.SHA256).PSK = some pskVal57 :=
  C7_only_psk_attribute_changes (mkPreSharedKey 5) userAlice
    ((mkPreSharedKey 7).exportPubKey) pskVal57
    (PreSharedKey.mk 5 (some pskVal57) HashAlg.SHA256) (by rfl)

/-- C8: for every plaintext, the hash decodes to a str (base64 text is ASCII)
and verifying the plaintext against that str succeeds; flipping one bit of the
plaintext abc (its last byte 99 becomes 98) makes the comparison return
false. -/
theorem C8_hash_verify_roundtrip :
    (∀ p : List Nat, ∃ s, pyBytesDecode ((mkHashText p).getHash) = .ok s ∧
        (mkHashText p).isSame s = true) ∧
    (mkHashText [97, 98, 98]).isSame ((mkHashText [97, 98, 99]).getHash) = false := by
  constructor
  · intro p
    refine ⟨(mkHashText p).getHash, ?_, ?_⟩
    · have hascii : ∀ c ∈ (mkHashText p).getHash, c < 128 := fun c hc =>
        b64encode_lt_128 (shaBytes HashAlg.SHA256 p) c hc
      unfold pyBytesDecode
      rw [if_pos (validUtf8_of_ascii _ hascii)]
    · simp [HashText.isSame]
  · decide

/-- C10: the PSK attribute of a fresh instance is None, and after every
successful generate call the attribute equals the returned value. -/
theorem C10_psk_attribute_invariant :
    (∀ (scalar : Nat) (alg : HashAlg), (mkPreSharedKey scalar alg).PSK = none) ∧
    ∀ (st : PreSharedKey) (user peer v : List Nat) (st' : PreSharedKey),
      PreSharedKey.generate st user peer = .ok (v, st') → st'.PSK = some v := by
  refine ⟨fun _ _ => rfl, fun st user peer v st' h => ?_⟩
  rw [generate_ok_state st user peer v st' h]

/-- Witness for C10 at the concrete run with scalars 5 and 7. -/
theorem C10_psk_attribute_invariant_witness :
    (mkPreSharedKey 5).PSK = none ∧
    (PreSharedKey.mk 5 (some pskVal57) HashAlg.SHA256).PSK = some pskVal57 :=
  ⟨C10_psk_attribute_invariant.1 5 HashAlg.SHA256,
   C10_psk_attribute_invariant.2 (mkPreSharedKey 5) userAlice
     ((mkPreSharedKey 7).exportPubKey) pskVal57
     (PreSharedKey.mk 5 (some pskVal57) HashAlg.SHA256) (by rfl)⟩
